import Mathlib

/-!
# Verification of the crewAI Supabase persistence layer

A shallow embedding of the repository's storage components:

* `SupabaseStorage` (`src/crewai/supabase_storage.py`) — the key/value memory store;
* `KickoffTaskOutputsSupabaseStorage` (`src/crewai/memory/storage/kickoff_task_outputs_storage.py`)
  — the task-output journal and crew-state snapshot store;
* `FileHandler` (`src/crewai/utilities/file_handler.py`) — the structured log sink.

Python strings are modelled as `List Char`, Python values as the inductive
`PyVal`, and the behaviour of `json.dumps` / `json.loads` as a canonical
encoder `encV` and parser `parse` over character lists, with the round-trip
law proved (`parse_encV`).  The Supabase backing store is modelled as explicit
record states, one table per component, with the PostgREST query-builder calls
(`insert`/`upsert`/`update().eq()`/`select().order()`/`delete().neq()`)
translated to list operations.
-/

/-- Python strings, modelled as lists of characters. -/
abbrev Str := List Char

/-! ## Decimal numerals (model of Python's `int` ↔ decimal-string conversion) -/

/-- The decimal digit character for `d` (well-defined for `d < 10`). -/
def digitChar (d : Nat) : Char :=
  match d with
  | 0 => '0' | 1 => '1' | 2 => '2' | 3 => '3' | 4 => '4'
  | 5 => '5' | 6 => '6' | 7 => '7' | 8 => '8' | _ => '9'

/-- Numeric value of a decimal digit character. -/
def charDigitVal (c : Char) : Nat := c.toNat - 48

/-- Decimal representation, most significant digit first, with explicit fuel
(any `fuel ≥ n` gives the true representation). -/
def natToCharsF : Nat → Nat → List Char
  | 0, _ => ['0']
  | fuel + 1, n =>
    if n < 10 then [digitChar n]
    else natToCharsF fuel (n / 10) ++ [digitChar (n % 10)]

/-- Decimal representation of a natural number, most significant digit first. -/
def natToChars (n : Nat) : List Char := natToCharsF n n

/-- Read a digit string back as a natural number (big-endian fold). -/
def decToNat (cs : List Char) : Nat :=
  cs.foldl (fun a c => 10 * a + charDigitVal c) 0

/-! ## String escaping (model of JSON string quoting in `json.dumps`) -/

/-- Escape one character for inclusion in a JSON string literal: quote and
backslash get a backslash prefix, everything else passes through. -/
def escapeChar (c : Char) : List Char :=
  if c = '"' ∨ c = '\\' then ['\\', c] else [c]

/-- Escape a whole string body. -/
def escapeStr : Str → Str
  | [] => []
  | c :: rest => escapeChar c ++ escapeStr rest

/-- Parse the body of a JSON string literal up to the closing quote,
undoing `escapeStr`; returns the decoded body and the remaining input. -/
def parseStrBody : Str → Option (Str × Str)
  | [] => none
  | '"' :: rest => some ([], rest)
  | '\\' :: [] => none
  | '\\' :: d :: rest' => (parseStrBody rest').map (fun p => (d :: p.1, p.2))
  | c :: rest => (parseStrBody rest).map (fun p => (c :: p.1, p.2))

/-! ## Digit spans (model of the numeric token scan in `json.loads`) -/

/-- Does the input start with a decimal digit? -/
def digitStart : Str → Bool
  | [] => false
  | c :: _ => c.isDigit

/-- Split a maximal run of digit characters off the front of the input. -/
def takeDigits : List Char → List Char × List Char
  | [] => ([], [])
  | c :: rest =>
    if c.isDigit then
      let p := takeDigits rest
      (c :: p.1, p.2)
    else ([], c :: rest)

/-! ## Python values

The universe of values the storage layer handles: JSON scalars, strings,
lists and string-keyed dicts, plus `pyobj` for a non-JSON-serializable
Python object (identified by a type tag).  `json.dumps` raises `TypeError`
on any value containing a `pyobj`. -/

mutual
inductive PyVal where
  | pynull : PyVal
  | pybool (b : Bool) : PyVal
  | pyint (n : Int) : PyVal
  | pystr (s : Str) : PyVal
  | pyobj (tag : Str) : PyVal
  | pylist (xs : PyValList) : PyVal
  | pydict (kvs : PyValDict) : PyVal
deriving DecidableEq
inductive PyValList where
  | nil : PyValList
  | cons (hd : PyVal) (tl : PyValList) : PyValList
deriving DecidableEq
inductive PyValDict where
  | nil : PyValDict
  | cons (key : Str) (val : PyVal) (tl : PyValDict) : PyValDict
deriving DecidableEq
end

mutual
/-- Is the value JSON-serializable (no embedded `pyobj`)?  Mirrors the domain
on which Python's `json.dumps` succeeds. -/
def representable : PyVal → Bool
  | .pyobj _ => false
  | .pylist xs => representableL xs
  | .pydict kvs => representableD kvs
  | _ => true
termination_by structural v => v
def representableL : PyValList → Bool
  | .nil => true
  | .cons v tl => representable v && representableL tl
termination_by structural xs => xs
def representableD : PyValDict → Bool
  | .nil => true
  | .cons _ v tl => representable v && representableD tl
termination_by structural kvs => kvs
end

/-! ## The canonical JSON encoder (model of `json.dumps` with default options:
`", "` and `": "` separators, `"null"`/`"true"`/`"false"` keywords, decimal
integers, quoted strings). -/

mutual
def encV : PyVal → Str
  | .pynull => ['n', 'u', 'l', 'l']
  | .pybool true => ['t', 'r', 'u', 'e']
  | .pybool false => ['f', 'a', 'l', 's', 'e']
  | .pyint n => if n < 0 then '-' :: natToChars n.natAbs else natToChars n.toNat
  | .pystr s => '"' :: (escapeStr s ++ ['"'])
  | .pyobj _ => []
  | .pylist xs => '[' :: encItems xs
  | .pydict kvs => '{' :: encEntries kvs
termination_by structural v => v
def encItems : PyValList → Str
  | .nil => [']']
  | .cons v tl => encV v ++ encTail tl
termination_by structural xs => xs
def encTail : PyValList → Str
  | .nil => [']']
  | .cons v tl => ',' :: ' ' :: (encV v ++ encTail tl)
termination_by structural xs => xs
def encEntries : PyValDict → Str
  | .nil => ['}']
  | .cons k v tl => '"' :: (escapeStr k ++ '"' :: ':' :: ' ' :: (encV v ++ encETail tl))
termination_by structural kvs => kvs
def encETail : PyValDict → Str
  | .nil => ['}']
  | .cons k v tl =>
    ',' :: ' ' :: '"' :: (escapeStr k ++ '"' :: ':' :: ' ' :: (encV v ++ encETail tl))
termination_by structural kvs => kvs
end

/-- `json.dumps`: the canonical encoding for serializable values, a
`TypeError` (modelled as `none`) otherwise. -/
def dumps (v : PyVal) : Option Str :=
  if representable v then some (encV v) else none

/-! ## The JSON parser (model of `json.loads` on the canonical encodings). -/

/-- Parse a decimal integer token. -/
def parseNum (cs : Str) : Option (PyVal × Str) :=
  let p := takeDigits cs
  if p.1 = [] then none else some (.pyint (decToNat p.1 : Int), p.2)

/-- After a string key inside an object, expect the `": "` separator. -/
def expectColon (cs : Str) : Option Str :=
  match cs with
  | ':' :: ' ' :: r => some r
  | _ => none

mutual
def parseValF : Nat → Str → Option (PyVal × Str)
  | 0, _ => none
  | _ + 1, [] => none
  | fuel + 1, c :: r =>
    if c.isDigit then parseNum (c :: r)
    else if c = '-' then
      let p := takeDigits r
      if p.1 = [] then none else some (.pyint (-(decToNat p.1 : Int)), p.2)
    else if c = '"' then (parseStrBody r).map (fun p => (.pystr p.1, p.2))
    else if c = '[' then parseItemsF fuel r
    else if c = '{' then parseEntriesF fuel r
    else
      match c :: r with
      | 'n' :: 'u' :: 'l' :: 'l' :: rest => some (.pynull, rest)
      | 't' :: 'r' :: 'u' :: 'e' :: rest => some (.pybool true, rest)
      | 'f' :: 'a' :: 'l' :: 's' :: 'e' :: rest => some (.pybool false, rest)
      | _ => none
def parseItemsF : Nat → Str → Option (PyVal × Str)
  | 0, _ => none
  | _ + 1, [] => none
  | fuel + 1, c :: r =>
    if c = ']' then some (.pylist .nil, r)
    else
      (parseValF fuel (c :: r)).bind fun p =>
        (parseTailF fuel p.2).bind fun q => some (.pylist (.cons p.1 q.1), q.2)
def parseTailF : Nat → Str → Option (PyValList × Str)
  | 0, _ => none
  | _ + 1, [] => none
  | fuel + 1, c :: r =>
    if c = ']' then some (.nil, r)
    else if c = ',' then
      match r with
      | ' ' :: r' =>
        (parseValF fuel r').bind fun p =>
          (parseTailF fuel p.2).bind fun q => some (.cons p.1 q.1, q.2)
      | _ => none
    else none
def parseEntriesF : Nat → Str → Option (PyVal × Str)
  | 0, _ => none
  | _ + 1, [] => none
  | fuel + 1, c :: r =>
    if c = '}' then some (.pydict .nil, r)
    else if c = '"' then
      (parseStrBody r).bind fun pk =>
        (expectColon pk.2).bind fun r2 =>
          (parseValF fuel r2).bind fun pv =>
            (parseETailF fuel pv.2).bind fun pt =>
              some (.pydict (.cons pk.1 pv.1 pt.1), pt.2)
    else none
def parseETailF : Nat → Str → Option (PyValDict × Str)
  | 0, _ => none
  | _ + 1, [] => none
  | fuel + 1, c :: r =>
    if c = '}' then some (.nil, r)
    else if c = ',' then
      match r with
      | ' ' :: '"' :: r' =>
        (parseStrBody r').bind fun pk =>
          (expectColon pk.2).bind fun r2 =>
            (parseValF fuel r2).bind fun pv =>
              (parseETailF fuel pv.2).bind fun pt =>
                some (.cons pk.1 pv.1 pt.1, pt.2)
      | _ => none
    else none
end

/-- `json.loads` on our canonical grammar: parse one value and require the
whole input to be consumed; `none` models `json.JSONDecodeError`. -/
def parse (cs : Str) : Option PyVal :=
  match parseValF (cs.length + 1) cs with
  | some (v, []) => some v
  | _ => none

/-! ## Round trip: the parser inverts the canonical encoder -/

mutual
/-- Structural size of a value, bounding the parser fuel it needs. -/
def sizeV : PyVal → Nat
  | .pylist xs => 1 + sizeL xs
  | .pydict kvs => 1 + sizeD kvs
  | _ => 1
termination_by structural v => v
def sizeL : PyValList → Nat
  | .nil => 1
  | .cons v tl => sizeV v + sizeL tl
termination_by structural xs => xs
def sizeD : PyValDict → Nat
  | .nil => 1
  | .cons _ v tl => sizeV v + sizeD tl
termination_by structural kvs => kvs
end

/-! ## The Supabase backing store and the error model -/

/-- The tables that exist and are accessible in the Supabase project;
construction-time probes check membership here. -/
structure Backend where
  tables : List Str
deriving DecidableEq

/-- The operation kinds of `DatabaseError.format_error`
(`crewai/utilities/errors.py`). -/
inductive DbErrKind where
  | initError
  | saveError
  | updateError
  | loadError
  | deleteError
deriving DecidableEq

/-- Failure model of the storage layer. -/
inductive DbErr where
  /-- `TypeError` raised by `json.dumps` on a non-serializable value. -/
  | typeError
  /-- Missing connection parameters: the `DatabaseOperationError` raised at
  construction before any client is built. -/
  | configMissing
  /-- A construction-time table probe failed
  (`Failed to verify Supabase tables` / `Failed to verify Supabase 'logs' table`). -/
  | schemaVerify
  /-- A write round-tripped but the response carried no written row
  (`... - no data returned`): the distinct affected-zero failure. -/
  | affectedZero
  /-- `DatabaseError.format_error(kind, cause)` re-wrap in a generic handler. -/
  | wrapped (kind : DbErrKind) (cause : DbErr)
deriving DecidableEq

/-- Environment variables visible to the process (`SUPABASE_URL`,
`SUPABASE_KEY`). -/
structure Env where
  supabase_url : Option Str
  supabase_key : Option Str
deriving DecidableEq

/-- Python truthiness of an optional string: `None` and `""` are falsy. -/
def truthy : Option Str → Bool
  | none => false
  | some s => !s.isEmpty

/-- Python's `x or y` on optional strings: `y` when `x` is falsy. -/
def pyOr (x y : Option Str) : Option Str := if truthy x then x else y

/-! ## MemoryStore: `SupabaseStorage` (src/crewai/supabase_storage.py) -/

/-- One row of the memory table (schema documented in
`_ensure_table_exists`: id, key, value, metadata, created_at, updated_at).
The generated uuid id is modelled as a `Nat`, with `0` standing for the
all-zero UUID that `clear` spares. -/
structure MemRow where
  id : Nat
  key : Str
  value : PyVal
  metadata : PyValDict
  created_at : Nat
  updated_at : Nat
deriving DecidableEq

/-- The memory table state; `nextId` feeds the id generation of inserts
(generated ids are always positive, as `gen_random_uuid()` never yields the
all-zero UUID). -/
structure MemDB where
  rows : List MemRow
  nextId : Nat
deriving DecidableEq

namespace SupabaseStorage

/-- `SupabaseStorage.__init__` (lines 20–30): builds the client and calls
`_ensure_table_exists`, which is a documented no-op (`pass`, lines 32–46) —
no table probe runs, so construction succeeds regardless of which tables the
backend actually has. -/
def init (supabase_url supabase_key table_name : Str) (be : Backend) :
    Except DbErr Unit :=
  .ok ()

/-- The value sent to the `value` column by `save` (line 61):
`json.dumps(value) if not isinstance(value, str) else value`; `none` models
the `TypeError` from `json.dumps` on a non-serializable value. -/
def storedValue (v : PyVal) : Option Str :=
  match v with
  | .pystr s => some s
  | _ => dumps v

/-- The row update applied by `update(data).eq("key", key)` in `save`:
the provided columns (`key`, `value`, `metadata`, `updated_at`) replace the
row's, `created_at` is untouched. -/
def updRow (k : Str) (sv : Str) (m : PyValDict) (now : Nat) (r : MemRow) : MemRow :=
  { r with key := k, value := PyVal.pystr sv, metadata := m, updated_at := now }

/-- Line 74: `return result.data[0] if result.data else {}` — the record the
call hands back; `none` models the empty dict, returned *instead of any
error* when the backend reported no written row. -/
def saveReturn (data : List MemRow) : Option MemRow := data.head?

/-- `SupabaseStorage.save` (lines 48–74): serialize the value (strings pass
through raw), update by key, insert with `created_at` when no row was
updated.  Returns the new state and the record of line 74. -/
def save (db : MemDB) (key : Str) (value : PyVal) (metadata : PyValDict)
    (now : Nat) : Except DbErr (MemDB × Option MemRow) :=
  match storedValue value with
  | none => .error .typeError
  | some sv =>
    let updated := db.rows.filter (fun r => r.key = key)
    if updated.isEmpty then
      let newRow : MemRow :=
        { id := db.nextId + 1, key := key, value := PyVal.pystr sv,
          metadata := metadata, created_at := now, updated_at := now }
      .ok ({ rows := db.rows ++ [newRow], nextId := db.nextId + 1 },
        saveReturn [newRow])
    else
      let rows1 := db.rows.map (fun r => if r.key = key then updRow key sv metadata now r else r)
      .ok ({ rows := rows1, nextId := db.nextId },
        saveReturn (rows1.filter (fun r => r.key = key)))

/-- `SupabaseStorage.load` (lines 76–93): select the `value` of rows matching
the key; a string value is passed through `json.loads`, with the raw stored
value returned unchanged on `json.JSONDecodeError`; `none` when the key is
absent. -/
def load (db : MemDB) (key : Str) : Option PyVal :=
  match (db.rows.filter (fun r => r.key = key)).head? with
  | none => none
  | some r =>
    match r.value with
    | .pystr s =>
      match parse s with
      | some w => some w
      | none => some (.pystr s)
    | v => some v

/-- `SupabaseStorage.delete` (lines 95–105): delete rows matching the key and
report whether any row was removed. -/
def delete (db : MemDB) (key : Str) : MemDB × Bool :=
  ({ rows := db.rows.filter (fun r => ¬ r.key = key), nextId := db.nextId },
    !(db.rows.filter (fun r => r.key = key)).isEmpty)

/-- `SupabaseStorage.clear` (lines 147–154):
`delete().neq("id", "00000000-0000-0000-0000-000000000000")` — removes every
row whose id differs from the all-zero UUID, then returns `True`. -/
def clear (db : MemDB) : MemDB × Bool :=
  ({ rows := db.rows.filter (fun r => r.id = 0), nextId := db.nextId }, true)

/-- Number of stored rows for a key. -/
def keyCount (db : MemDB) (k : Str) : Nat :=
  (db.rows.filter (fun r => r.key = k)).length

/-- The §3 invariant: at most one record per key. -/
def memInv (db : MemDB) : Prop := ∀ k, keyCount db k ≤ 1

end SupabaseStorage

/-! ## TaskOutputJournal & StateSnapshotStore:
`KickoffTaskOutputsSupabaseStorage`
(src/crewai/memory/storage/kickoff_task_outputs_storage.py) -/

/-- The fields of `crewai.task.Task` that `add` reads: `task.id` (stringified)
and `task.expected_output`; the Task class itself is outside this snapshot. -/
structure CrewTask where
  id : Str
  expected_output : Str
deriving DecidableEq

/-- Modelled from the spec: the type tags `CrewJSONEncoder` special-cases
(`crewai/utilities/crew_json_encoder.py` is not in the repository snapshot).
Per §4.3 and §9 the canonical structured encoding "must special-case known
non-primitive embedded types before falling back to generic structural
traversal"; known embedded types such as `UUID` and `datetime` are rendered
as their string form. -/
def knownEmbeddedTag (tag : Str) : Bool :=
  tag = "UUID".toList || tag = "datetime".toList

mutual
/-- Modelled from the spec: the net effect of
`json.loads(json.dumps(x, cls=CrewJSONEncoder))` (the encoder class is not in
the repository snapshot).  Known non-primitive embedded objects become their
string form, containers are traversed structurally, and "values that remain
unencodable must fail the call rather than silently drop data" (§4.3),
modelled as `none`. -/
def crewEncode : PyVal → Option PyVal
  | .pyobj tag => if knownEmbeddedTag tag then some (.pystr tag) else none
  | .pylist xs => (crewEncodeL xs).map .pylist
  | .pydict kvs => (crewEncodeD kvs).map .pydict
  | v => some v
termination_by structural v => v
def crewEncodeL : PyValList → Option PyValList
  | .nil => some .nil
  | .cons v tl => (crewEncode v).bind fun w => (crewEncodeL tl).map (.cons w)
termination_by structural xs => xs
def crewEncodeD : PyValDict → Option PyValDict
  | .nil => some .nil
  | .cons k v tl => (crewEncode v).bind fun w => (crewEncodeD tl).map (.cons k w)
termination_by structural kvs => kvs
end

/-- One row of the `results` table (schema in the `_initialize_tables`
docstring: task_id primary key, expected_output, output, task_index, inputs,
was_replayed, timestamp with server default `now()`). -/
structure ResultRow where
  task_id : Str
  expected_output : Str
  output : PyVal
  task_index : Int
  inputs : PyVal
  was_replayed : Bool
  timestamp : Nat
deriving DecidableEq

/-- The columns `add` sends (everything except the defaulted `timestamp`). -/
structure ResultData where
  task_id : Str
  expected_output : Str
  output : PyVal
  task_index : Int
  inputs : PyVal
  was_replayed : Bool
deriving DecidableEq

/-- One row of the `crew_state` table (id with server default
`gen_random_uuid()`, task_id, state_data, timestamp with default `now()`). -/
structure CrewStateRow where
  id : Nat
  task_id : Str
  state_data : PyVal
  timestamp : Nat
deriving DecidableEq

/-- State of the two tables owned by `KickoffTaskOutputsSupabaseStorage`,
together with the server-side generators backing the column defaults:
`nextId` for `gen_random_uuid()` and `now` for `now()` (the server clock,
stepped at each insert). -/
structure KickoffDB where
  results : List ResultRow
  crewState : List CrewStateRow
  nextId : Nat
  now : Nat
deriving DecidableEq

namespace KickoffTaskOutputsSupabaseStorage

/-- `__init__` plus `_initialize_tables` (lines 20–84): resolve credentials
from the arguments with environment fallback (Python `or`, so empty strings
fall through), fail on missing credentials before building the client, then
probe the `results` and `crew_state` tables with a minimal
`select(...).limit(1)` read; a failed probe is wrapped as an INIT_ERROR
`DatabaseOperationError`. -/
def init (supabase_url supabase_key : Option Str) (env : Env) (be : Backend) :
    Except DbErr Unit :=
  let url := pyOr supabase_url env.supabase_url
  let key := pyOr supabase_key env.supabase_key
  if !truthy url || !truthy key then .error .configMissing
  else if "results".toList ∈ be.tables ∧ "crew_state".toList ∈ be.tables then .ok ()
  else .error (.wrapped .initError .schemaVerify)

/-- PostgREST `upsert(data)` on `results` (conflict target: the `task_id`
primary key): replace the provided columns of the conflicting row, keeping
its defaulted `timestamp`, or insert a new row whose `timestamp` comes from
the server clock.  Returns the new state and the written rows. -/
def upsertResult (db : KickoffDB) (d : ResultData) : KickoffDB × List ResultRow :=
  if db.results.any (fun r => r.task_id = d.task_id) then
    let rows := db.results.map (fun r =>
      if r.task_id = d.task_id then
        { task_id := d.task_id, expected_output := d.expected_output,
          output := d.output, task_index := d.task_index, inputs := d.inputs,
          was_replayed := d.was_replayed, timestamp := r.timestamp }
      else r)
    ({ db with results := rows },
      rows.filter (fun r => r.task_id = d.task_id))
  else
    let newRow : ResultRow :=
      { task_id := d.task_id, expected_output := d.expected_output,
        output := d.output, task_index := d.task_index, inputs := d.inputs,
        was_replayed := d.was_replayed, timestamp := db.now }
    ({ db with results := db.results ++ [newRow], now := db.now + 1 }, [newRow])

/-- Lines 126–127: `if not response.data: raise DatabaseOperationError(
"Failed to insert task output - no data returned", None)` — the distinct
affected-zero failure, re-wrapped by the generic handler as a SAVE_ERROR. -/
def addResponseCheck (data : List ResultRow) : Except DbErr Unit :=
  if data.isEmpty then .error (.wrapped .saveError .affectedZero) else .ok ()

/-- `add` (lines 86–134): serialize `output`/`inputs` through
`CrewJSONEncoder` (a `TypeError` aborts the call, re-wrapped as SAVE_ERROR),
upsert by `task_id`, and fail with the distinct affected-zero error if the
upsert reports no written row. -/
def add (db : KickoffDB) (task : CrewTask) (output : PyVal) (task_index : Int)
    (was_replayed : Bool) (inputs : PyVal) : Except DbErr KickoffDB :=
  match crewEncode output, crewEncode inputs with
  | some output_json, some inputs_json =>
    let d : ResultData :=
      { task_id := task.id, expected_output := task.expected_output,
        output := output_json, task_index := task_index,
        inputs := inputs_json, was_replayed := was_replayed }
    let res := upsertResult db d
    match addResponseCheck res.2 with
    | .ok _ => .ok res.1
    | .error e => .error e
  | _, _ => .error (.wrapped .saveError .typeError)

/-- Row order used by `load`: ascending `task_index`. -/
def resultLE (a b : ResultRow) : Prop := a.task_index ≤ b.task_index

instance : DecidableRel resultLE :=
  fun a b => inferInstanceAs (Decidable (a.task_index ≤ b.task_index))

instance : IsTrans ResultRow resultLE := ⟨fun _ _ _ h1 h2 => le_trans h1 h2⟩

instance : IsTotal ResultRow resultLE := ⟨fun a b => le_total a.task_index b.task_index⟩

/-- `load` (lines 177–211): select every row of `results` ordered ascending
by `task_index` (`.order("task_index")`, ascending being the PostgREST
default), repackaging each row's columns. -/
def load (db : KickoffDB) : List ResultRow :=
  List.insertionSort resultLE db.results

/-- `delete_all` (lines 213–232): `delete().neq("task_id", "")` — removes
every row whose `task_id` differs from the empty string. -/
def delete_all (db : KickoffDB) : KickoffDB :=
  { db with results := db.results.filter (fun r => r.task_id = ([] : Str)) }

/-- The `crew_state` insert of `save_crew_state` (line 257): a new row whose
`id` and `timestamp` come from the server-side column defaults; returns the
new state and the written rows. -/
def crewInsert (db : KickoffDB) (task_id : Str) (sd : PyVal) :
    KickoffDB × List CrewStateRow :=
  let newRow : CrewStateRow :=
    { id := db.nextId, task_id := task_id, state_data := sd,
      timestamp := db.now }
  let db' : KickoffDB :=
    { db with crewState := db.crewState ++ [newRow],
              nextId := db.nextId + 1, now := db.now + 1 }
  (db', [newRow])

/-- `save_crew_state` (lines 234–267): encode the state through
`CrewJSONEncoder`, always insert a fresh row (never update), and fail with
the distinct affected-zero error if the insert returns no row. -/
def save_crew_state (db : KickoffDB) (task_id : Str) (state_data : PyVal) :
    Except DbErr KickoffDB :=
  match crewEncode state_data with
  | none => .error (.wrapped .saveError .typeError)
  | some state_json =>
    let res := crewInsert db task_id state_json
    if res.2.isEmpty then .error (.wrapped .saveError .affectedZero)
    else .ok res.1

/-- Row order used by `load_crew_state`: ascending `timestamp`. -/
def crewLE (a b : CrewStateRow) : Prop := a.timestamp ≤ b.timestamp

instance : DecidableRel crewLE :=
  fun a b => inferInstanceAs (Decidable (a.timestamp ≤ b.timestamp))

instance : IsTrans CrewStateRow crewLE := ⟨fun _ _ _ h1 h2 => le_trans h1 h2⟩

instance : IsTotal CrewStateRow crewLE := ⟨fun a b => le_total a.timestamp b.timestamp⟩

/-- `load_crew_state` (lines 269–296): select `crew_state` ordered ascending
by `timestamp`, filtered to one `task_id` when that argument is truthy
(Python `if task_id:`, so `None` and `""` both mean "all"). -/
def load_crew_state (db : KickoffDB) (task_id : Option Str) : List CrewStateRow :=
  match task_id with
  | some tid =>
    if tid = ([] : Str) then List.insertionSort crewLE db.crewState
    else List.insertionSort crewLE (db.crewState.filter (fun r => r.task_id = tid))
  | none => List.insertionSort crewLE db.crewState

end KickoffTaskOutputsSupabaseStorage

/-! ## LogSink: `FileHandler` (src/crewai/utilities/file_handler.py) -/

/-- The `file_path` constructor argument: `bool | str | None`, accepted
only for backward compatibility. -/
inductive FilePathArg where
  | ofBool (b : Bool)
  | ofStr (s : Str)
  | noneArg
deriving DecidableEq

/-- One row of the `logs` table: generated id, the `timestamp` column, and
the named fields the entry carried. -/
structure LogRow where
  id : Nat
  timestamp : Nat
  fields : List (Str × PyVal)
deriving DecidableEq

/-- The `logs` table state plus the server-side generators (`nextId` for
`gen_random_uuid()`, `now` for the `timestamp` column's `now()` default). -/
structure LogsDB where
  rows : List LogRow
  nextId : Nat
  now : Nat
deriving DecidableEq

namespace FileHandler

/-- `FileHandler.__init__` (lines 47–71): `file_path` is accepted and
ignored; credentials are read only from the environment and construction
fails when either is missing; then `_verify_table_access` (lines 73–105)
probes the `logs` table, a failure being wrapped as an INIT_ERROR. -/
def init (file_path : FilePathArg) (env : Env) (be : Backend) :
    Except DbErr Unit :=
  if !truthy env.supabase_url || !truthy env.supabase_key then
    .error .configMissing
  else if "logs".toList ∈ be.tables then .ok ()
  else .error (.wrapped .initError .schemaVerify)

/-- Is the metadata entry of the kwargs (if any) serializable by the plain
`json.dumps` of line 135? -/
def metadataOk (kwargs : List (Str × PyVal)) : Bool :=
  kwargs.all (fun kv =>
    if kv.1 = "metadata".toList then
      match kv.2 with
      | .pydict m => representableD m
      | _ => true
    else true)

/-- `FileHandler.log` (lines 107–151): stamps the entry with the client's
`datetime.now()` (`clientNow` — sent as the `timestamp` column, so the
server-side `now()` default is not used), re-encodes `metadata` through plain
`json.dumps`/`json.loads`, inserts into `logs`, and raises the affected-zero
error if the insert returns no row. -/
def log (db : LogsDB) (clientNow : Nat) (kwargs : List (Str × PyVal)) :
    Except DbErr LogsDB :=
  if metadataOk kwargs then
    let newRow : LogRow :=
      { id := db.nextId, timestamp := clientNow, fields := kwargs }
    let written := [newRow]
    if written.isEmpty then .error (.wrapped .saveError .affectedZero)
    else .ok { rows := db.rows ++ [newRow], nextId := db.nextId + 1,
               now := db.now + 1 }
  else .error (.wrapped .saveError .typeError)

end FileHandler

/-- Values for which the save/load round trip is the identity: everything
serializable except strings that themselves parse as JSON. -/
def loadStable : PyVal → Bool
  | .pystr s => (parse s).isNone
  | _ => true

theorem charDigitVal_digitChar {d : Nat} (h : d < 10) :
    charDigitVal (digitChar d) = d := by
  interval_cases d <;> rfl

theorem isDigit_digitChar {d : Nat} (h : d < 10) :
    (digitChar d).isDigit = true := by
  interval_cases d <;> rfl

theorem natToCharsF_ne_nil (fuel n : Nat) : natToCharsF fuel n ≠ [] := by
  cases fuel with
  | zero => simp [natToCharsF]
  | succ fuel =>
    rw [natToCharsF]
    split <;> simp

theorem natToChars_ne_nil (n : Nat) : natToChars n ≠ [] := natToCharsF_ne_nil n n

theorem natToCharsF_digits (fuel : Nat) :
    ∀ n, ∀ c ∈ natToCharsF fuel n, c.isDigit = true := by
  induction fuel with
  | zero =>
    intro n c hc
    simp only [natToCharsF, List.mem_singleton] at hc
    subst hc; rfl
  | succ fuel ih =>
    intro n c hc
    rw [natToCharsF] at hc
    split at hc
    · next h =>
      simp only [List.mem_singleton] at hc
      subst hc
      exact isDigit_digitChar h
    · rw [List.mem_append] at hc
      rcases hc with hc | hc
      · exact ih (n / 10) c hc
      · simp only [List.mem_singleton] at hc
        subst hc
        exact isDigit_digitChar (Nat.mod_lt _ (by omega))

theorem natToChars_digits (n : Nat) : ∀ c ∈ natToChars n, c.isDigit = true :=
  natToCharsF_digits n n

theorem decToNat_natToCharsF (fuel : Nat) :
    ∀ n, n ≤ fuel → decToNat (natToCharsF fuel n) = n := by
  induction fuel with
  | zero =>
    intro n hn
    interval_cases n
    rfl
  | succ fuel ih =>
    intro n hn
    rw [natToCharsF]
    split
    · next h =>
      simp [decToNat, charDigitVal_digitChar h]
    · next h =>
      have hdiv := ih (n / 10) (by omega)
      unfold decToNat at hdiv ⊢
      rw [List.foldl_append, hdiv]
      simp only [List.foldl_cons, List.foldl_nil]
      rw [charDigitVal_digitChar (Nat.mod_lt n (by omega))]
      omega

theorem decToNat_natToChars (n : Nat) : decToNat (natToChars n) = n :=
  decToNat_natToCharsF n n le_rfl

theorem parseStrBody_other (c : Char) (l : Str) (hc1 : c ≠ '"') (hc2 : c ≠ '\\') :
    parseStrBody (c :: l) = (parseStrBody l).map (fun p => (c :: p.1, p.2)) := by
  rw [parseStrBody.eq_def]
  split
  · rename_i h; exact absurd h (List.cons_ne_nil _ _)
  · rename_i h; exact absurd (List.cons.inj h).1 hc1
  · rename_i h; exact absurd (List.cons.inj h).1 hc2
  · rename_i h; exact absurd (List.cons.inj h).1 hc2
  · rename_i h
    obtain ⟨h1, h2⟩ := List.cons.inj h
    subst h1; subst h2
    rfl

theorem parseStrBody_escape (s : Str) (rest : Str) :
    parseStrBody (escapeStr s ++ '"' :: rest) = some (s, rest) := by
  induction s with
  | nil => rfl
  | cons c s ih =>
    by_cases hc : c = '"' ∨ c = '\\'
    · have h2 : escapeStr (c :: s) = '\\' :: c :: escapeStr s := by
        simp [escapeStr, escapeChar, hc]
      rw [h2, List.cons_append, List.cons_append]
      have h3 : parseStrBody ('\\' :: c :: (escapeStr s ++ '"' :: rest)) =
          (parseStrBody (escapeStr s ++ '"' :: rest)).map (fun p => (c :: p.1, p.2)) := rfl
      rw [h3, ih]
      rfl
    · push_neg at hc
      have h2 : escapeStr (c :: s) = c :: escapeStr s := by
        simp [escapeStr, escapeChar, hc.1, hc.2]
      rw [h2, List.cons_append, parseStrBody_other c _ hc.1 hc.2, ih]
      rfl

theorem takeDigits_spec (l r : List Char) (hl : ∀ c ∈ l, c.isDigit = true)
    (hr : digitStart r = false) : takeDigits (l ++ r) = (l, r) := by
  induction l with
  | nil =>
    simp only [List.nil_append]
    cases r with
    | nil => rfl
    | cons c rest =>
      simp only [digitStart] at hr
      simp [takeDigits, hr]
  | cons c l ih =>
    have hc : c.isDigit = true := hl c (by simp)
    simp only [List.cons_append, takeDigits, hc, if_pos, List.append_eq]
    rw [ih (fun d hd => hl d (by simp [hd]))]

theorem sizeV_pos (v : PyVal) : 1 ≤ sizeV v := by
  cases v <;> simp [sizeV]

theorem sizeL_pos (xs : PyValList) : 1 ≤ sizeL xs := by
  cases xs with
  | nil => simp [sizeL]
  | cons v tl => have := sizeV_pos v; simp [sizeL]; omega

theorem sizeD_pos (kvs : PyValDict) : 1 ≤ sizeD kvs := by
  cases kvs with
  | nil => simp [sizeD]
  | cons k v tl => have := sizeV_pos v; simp [sizeD]; omega

theorem isDigit_ne_rbracket {c : Char} (h : c.isDigit = true) : c ≠ ']' := by
  intro he
  subst he
  exact absurd h (by decide)

/-- A serializable value's encoding is nonempty and never starts with `]`. -/
theorem encV_head (v : PyVal) (hrep : representable v = true) :
    ∃ c cs, encV v = c :: cs ∧ c ≠ ']' := by
  cases v with
  | pynull => exact ⟨'n', _, rfl, by decide⟩
  | pybool b =>
    cases b with
    | false => exact ⟨'f', _, rfl, by decide⟩
    | true => exact ⟨'t', _, rfl, by decide⟩
  | pyint n =>
    by_cases hn : n < 0
    · exact ⟨'-', natToChars n.natAbs, by simp [encV, hn], by decide⟩
    · obtain ⟨c, cs, hcons⟩ := List.exists_cons_of_ne_nil (natToChars_ne_nil n.toNat)
      refine ⟨c, cs, by simp [encV, hn, hcons], ?_⟩
      exact isDigit_ne_rbracket (natToChars_digits n.toNat c (by simp [hcons]))
  | pystr s => exact ⟨'"', _, rfl, by decide⟩
  | pyobj tag => simp [representable] at hrep
  | pylist xs => exact ⟨'[', _, rfl, by decide⟩
  | pydict kvs => exact ⟨'{', _, rfl, by decide⟩

theorem digitStart_encTail (tl : PyValList) (X : Str) :
    digitStart (encTail tl ++ X) = false := by
  cases tl <;> rfl

theorem digitStart_encETail (tl : PyValDict) (X : Str) :
    digitStart (encETail tl ++ X) = false := by
  cases tl <;> rfl

theorem parseValF_cons (f : Nat) (c : Char) (r : Str) :
    parseValF (f + 1) (c :: r) =
      (if c.isDigit then parseNum (c :: r)
       else if c = '-' then
         let p := takeDigits r
         if p.1 = [] then none else some (.pyint (-(decToNat p.1 : Int)), p.2)
       else if c = '"' then (parseStrBody r).map (fun p => (.pystr p.1, p.2))
       else if c = '[' then parseItemsF f r
       else if c = '{' then parseEntriesF f r
       else
         match c :: r with
         | 'n' :: 'u' :: 'l' :: 'l' :: rest => some (.pynull, rest)
         | 't' :: 'r' :: 'u' :: 'e' :: rest => some (.pybool true, rest)
         | 'f' :: 'a' :: 'l' :: 's' :: 'e' :: rest => some (.pybool false, rest)
         | _ => none) := rfl

theorem parseItemsF_cons (f : Nat) (c : Char) (r : Str) :
    parseItemsF (f + 1) (c :: r) =
      (if c = ']' then some (.pylist .nil, r)
       else
         (parseValF f (c :: r)).bind fun p =>
           (parseTailF f p.2).bind fun q => some (.pylist (.cons p.1 q.1), q.2)) := rfl

theorem parseEntriesF_cons (f : Nat) (c : Char) (r : Str) :
    parseEntriesF (f + 1) (c :: r) =
      (if c = '}' then some (.pydict .nil, r)
       else if c = '"' then
         (parseStrBody r).bind fun pk =>
           (expectColon pk.2).bind fun r2 =>
             (parseValF f r2).bind fun pv =>
               (parseETailF f pv.2).bind fun pt =>
                 some (.pydict (.cons pk.1 pv.1 pt.1), pt.2)
       else none) := rfl

theorem parseNum_natToChars (m : Nat) (rest : Str) (hd : digitStart rest = false) :
    parseNum (natToChars m ++ rest) = some (.pyint (m : Int), rest) := by
  unfold parseNum
  rw [takeDigits_spec _ _ (natToChars_digits m) hd]
  simp [natToChars_ne_nil m, decToNat_natToChars]

mutual
theorem parseValF_encV (fuel : Nat) (v : PyVal) (rest : Str)
    (hrep : representable v = true) (hs : sizeV v ≤ fuel)
    (hd : digitStart rest = false) :
    parseValF fuel (encV v ++ rest) = some (v, rest) := by
  match fuel with
  | 0 => exact absurd hs (by have := sizeV_pos v; omega)
  | fuel + 1 =>
    cases v with
    | pynull => rfl
    | pybool b =>
      cases b with
      | true => rfl
      | false => rfl
    | pyint n =>
      by_cases hn : n < 0
      · have he : encV (.pyint n) = '-' :: natToChars n.natAbs := by simp [encV, hn]
        rw [he, List.cons_append, parseValF_cons]
        rw [if_neg (by decide), if_pos rfl]
        rw [takeDigits_spec _ _ (natToChars_digits n.natAbs) hd]
        simp [natToChars_ne_nil n.natAbs, decToNat_natToChars]
        rw [abs_of_neg hn, neg_neg]
      · have he : encV (.pyint n) = natToChars n.toNat := by simp [encV, hn]
        rw [he]
        obtain ⟨c, cs, hcons⟩ := List.exists_cons_of_ne_nil (natToChars_ne_nil n.toNat)
        have hcdig : c.isDigit = true := natToChars_digits n.toNat c (by simp [hcons])
        rw [hcons, List.cons_append, parseValF_cons, if_pos hcdig,
          ← List.cons_append, ← hcons, parseNum_natToChars n.toNat rest hd]
        have hv : ((n.toNat : Nat) : Int) = n := by omega
        rw [hv]
    | pystr s =>
      rw [show encV (.pystr s) ++ rest = '"' :: ((escapeStr s ++ ['"']) ++ rest) from rfl]
      rw [parseValF_cons, if_neg (by decide), if_neg (by decide), if_pos rfl]
      rw [show (escapeStr s ++ ['"']) ++ rest = escapeStr s ++ '"' :: rest by simp]
      rw [parseStrBody_escape]
      rfl
    | pyobj tag => simp [representable] at hrep
    | pylist xs =>
      rw [show encV (.pylist xs) ++ rest = '[' :: (encItems xs ++ rest) from rfl]
      rw [parseValF_cons, if_neg (by decide), if_neg (by decide), if_neg (by decide),
        if_pos rfl]
      exact parseItemsF_encItems fuel xs rest hrep (by rw [sizeV] at hs; omega)
    | pydict kvs =>
      rw [show encV (.pydict kvs) ++ rest = '{' :: (encEntries kvs ++ rest) from rfl]
      rw [parseValF_cons, if_neg (by decide), if_neg (by decide), if_neg (by decide),
        if_neg (by decide), if_pos rfl]
      exact parseEntriesF_encEntries fuel kvs rest hrep (by rw [sizeV] at hs; omega)
termination_by fuel
theorem parseItemsF_encItems (fuel : Nat) (xs : PyValList) (rest : Str)
    (hrep : representableL xs = true) (hs : sizeL xs ≤ fuel) :
    parseItemsF fuel (encItems xs ++ rest) = some (.pylist xs, rest) := by
  match fuel with
  | 0 => exact absurd hs (by have := sizeL_pos xs; omega)
  | fuel + 1 =>
    cases xs with
    | nil => rfl
    | cons v tl =>
      rw [representableL, Bool.and_eq_true] at hrep
      have hsv : sizeV v ≤ fuel := by
        have := sizeL_pos tl; rw [sizeL] at hs; omega
      have hst : sizeL tl ≤ fuel := by
        have := sizeV_pos v; rw [sizeL] at hs; omega
      obtain ⟨c, cs, hcons, hne⟩ := encV_head v hrep.1
      have he : encItems (.cons v tl) ++ rest = c :: (cs ++ (encTail tl ++ rest)) := by
        rw [encItems, hcons]; simp
      rw [he, parseItemsF_cons, if_neg hne]
      have hv : parseValF fuel (c :: (cs ++ (encTail tl ++ rest))) =
          some (v, encTail tl ++ rest) := by
        rw [← List.cons_append, ← hcons]
        exact parseValF_encV fuel v _ hrep.1 hsv (digitStart_encTail tl rest)
      have ht := parseTailF_encTail fuel tl rest hrep.2 hst
      rw [hv]
      simp only [Option.some_bind', ht]
termination_by fuel
theorem parseTailF_encTail (fuel : Nat) (xs : PyValList) (rest : Str)
    (hrep : representableL xs = true) (hs : sizeL xs ≤ fuel) :
    parseTailF fuel (encTail xs ++ rest) = some (xs, rest) := by
  match fuel with
  | 0 => exact absurd hs (by have := sizeL_pos xs; omega)
  | fuel + 1 =>
    cases xs with
    | nil => rfl
    | cons v tl =>
      rw [representableL, Bool.and_eq_true] at hrep
      have hsv : sizeV v ≤ fuel := by
        have := sizeL_pos tl; rw [sizeL] at hs; omega
      have hst : sizeL tl ≤ fuel := by
        have := sizeV_pos v; rw [sizeL] at hs; omega
      have he : encTail (.cons v tl) ++ rest =
          ',' :: ' ' :: (encV v ++ (encTail tl ++ rest)) := by
        rw [encTail]; simp
      rw [he]
      have hbody : parseTailF (fuel + 1) (',' :: ' ' :: (encV v ++ (encTail tl ++ rest))) =
          (parseValF fuel (encV v ++ (encTail tl ++ rest))).bind fun p =>
            (parseTailF fuel p.2).bind fun q => some (.cons p.1 q.1, q.2) := rfl
      have ht := parseTailF_encTail fuel tl rest hrep.2 hst
      rw [hbody, parseValF_encV fuel v _ hrep.1 hsv (digitStart_encTail tl rest)]
      simp only [Option.some_bind', ht]
termination_by fuel
theorem parseEntriesF_encEntries (fuel : Nat) (kvs : PyValDict) (rest : Str)
    (hrep : representableD kvs = true) (hs : sizeD kvs ≤ fuel) :
    parseEntriesF fuel (encEntries kvs ++ rest) = some (.pydict kvs, rest) := by
  match fuel with
  | 0 => exact absurd hs (by have := sizeD_pos kvs; omega)
  | fuel + 1 =>
    cases kvs with
    | nil => rfl
    | cons k v tl =>
      rw [representableD, Bool.and_eq_true] at hrep
      have hsv : sizeV v ≤ fuel := by
        have := sizeD_pos tl; rw [sizeD] at hs; omega
      have hst : sizeD tl ≤ fuel := by
        have := sizeV_pos v; rw [sizeD] at hs; omega
      have he : encEntries (.cons k v tl) ++ rest =
          '"' :: (escapeStr k ++ '"' :: (':' :: ' ' :: (encV v ++ (encETail tl ++ rest)))) := by
        rw [encEntries]; simp
      rw [he, parseEntriesF_cons, if_neg (by decide), if_pos rfl, parseStrBody_escape]
      have ht := parseETailF_encETail fuel tl rest hrep.2 hst
      have hval := parseValF_encV fuel v (encETail tl ++ rest) hrep.1 hsv
        (digitStart_encETail tl rest)
      simp only [Option.some_bind', expectColon, hval, ht]
termination_by fuel
theorem parseETailF_encETail (fuel : Nat) (kvs : PyValDict) (rest : Str)
    (hrep : representableD kvs = true) (hs : sizeD kvs ≤ fuel) :
    parseETailF fuel (encETail kvs ++ rest) = some (kvs, rest) := by
  match fuel with
  | 0 => exact absurd hs (by have := sizeD_pos kvs; omega)
  | fuel + 1 =>
    cases kvs with
    | nil => rfl
    | cons k v tl =>
      rw [representableD, Bool.and_eq_true] at hrep
      have hsv : sizeV v ≤ fuel := by
        have := sizeD_pos tl; rw [sizeD] at hs; omega
      have hst : sizeD tl ≤ fuel := by
        have := sizeV_pos v; rw [sizeD] at hs; omega
      have he : encETail (.cons k v tl) ++ rest =
          ',' :: ' ' :: '"' ::
            (escapeStr k ++ '"' :: (':' :: ' ' :: (encV v ++ (encETail tl ++ rest)))) := by
        rw [encETail]; simp
      rw [he]
      have hbody : parseETailF (fuel + 1) (',' :: ' ' :: '"' ::
          (escapeStr k ++ '"' :: (':' :: ' ' :: (encV v ++ (encETail tl ++ rest))))) =
          (parseStrBody (escapeStr k ++ '"' :: (':' :: ' ' ::
              (encV v ++ (encETail tl ++ rest))))).bind fun pk =>
            (expectColon pk.2).bind fun r2 =>
              (parseValF fuel r2).bind fun pv =>
                (parseETailF fuel pv.2).bind fun pt =>
                  some (.cons pk.1 pv.1 pt.1, pt.2) := rfl
      have ht := parseETailF_encETail fuel tl rest hrep.2 hst
      have hval := parseValF_encV fuel v (encETail tl ++ rest) hrep.1 hsv
        (digitStart_encETail tl rest)
      rw [hbody, parseStrBody_escape]
      simp only [Option.some_bind', expectColon, hval, ht]
termination_by fuel
end

mutual
/-- A serializable value's structural size is bounded by its encoding length,
so `parse`'s default fuel (input length + 1) always suffices. -/
theorem sizeV_le_encV (v : PyVal) (h : representable v = true) :
    sizeV v ≤ (encV v).length := by
  cases v with
  | pynull => simp [sizeV, encV]
  | pybool b => cases b <;> simp [sizeV, encV]
  | pyint n =>
    have h1 : 1 ≤ (natToChars n.natAbs).length :=
      List.length_pos.mpr (natToChars_ne_nil _)
    have h2 : 1 ≤ (natToChars n.toNat).length :=
      List.length_pos.mpr (natToChars_ne_nil _)
    by_cases hn : n < 0 <;> (simp [sizeV, encV, hn]; try omega)
  | pystr s => simp [sizeV, encV]
  | pyobj tag => simp [representable] at h
  | pylist xs =>
    have := sizeL_le_encItems xs h
    simp only [sizeV, encV, List.length_cons]
    omega
  | pydict kvs =>
    have := sizeD_le_encEntries kvs h
    simp only [sizeV, encV, List.length_cons]
    omega
termination_by structural v
theorem sizeL_le_encItems (xs : PyValList) (h : representableL xs = true) :
    sizeL xs ≤ (encItems xs).length := by
  cases xs with
  | nil => simp [sizeL, encItems]
  | cons v tl =>
    rw [representableL, Bool.and_eq_true] at h
    have h1 := sizeV_le_encV v h.1
    have h2 := sizeL_le_encTail tl h.2
    simp only [sizeL, encItems, List.length_append]
    omega
termination_by structural xs
theorem sizeL_le_encTail (xs : PyValList) (h : representableL xs = true) :
    sizeL xs ≤ (encTail xs).length := by
  cases xs with
  | nil => simp [sizeL, encTail]
  | cons v tl =>
    rw [representableL, Bool.and_eq_true] at h
    have h1 := sizeV_le_encV v h.1
    have h2 := sizeL_le_encTail tl h.2
    simp only [sizeL, encTail, List.length_cons, List.length_append]
    omega
termination_by structural xs
theorem sizeD_le_encEntries (kvs : PyValDict) (h : representableD kvs = true) :
    sizeD kvs ≤ (encEntries kvs).length := by
  cases kvs with
  | nil => simp [sizeD, encEntries]
  | cons k v tl =>
    rw [representableD, Bool.and_eq_true] at h
    have h1 := sizeV_le_encV v h.1
    have h2 := sizeD_le_encETail tl h.2
    simp only [sizeD, encEntries, List.length_cons, List.length_append]
    omega
termination_by structural kvs
theorem sizeD_le_encETail (kvs : PyValDict) (h : representableD kvs = true) :
    sizeD kvs ≤ (encETail kvs).length := by
  cases kvs with
  | nil => simp [sizeD, encETail]
  | cons k v tl =>
    rw [representableD, Bool.and_eq_true] at h
    have h1 := sizeV_le_encV v h.1
    have h2 := sizeD_le_encETail tl h.2
    simp only [sizeD, encETail, List.length_cons, List.length_append]
    omega
termination_by structural kvs
end

/-- The round-trip law: `json.loads` inverts `json.dumps` on every
serializable value. -/
theorem parse_encV (v : PyVal) (h : representable v = true) :
    parse (encV v) = some v := by
  unfold parse
  have h1 : parseValF ((encV v).length + 1) (encV v ++ []) = some (v, []) :=
    parseValF_encV _ v [] h (by have := sizeV_le_encV v h; omega) rfl
  rw [List.append_nil] at h1
  rw [h1]

namespace SupabaseStorage

theorem storedValue_of_unrepresentable (v : PyVal) (h : representable v = false) :
    storedValue v = none := by
  cases v <;> simp_all [storedValue, dumps, representable]

theorem storedValue_of_representable (v : PyVal) (h : representable v = true) :
    storedValue v = some (match v with | .pystr s => s | _ => encV v) := by
  cases v <;> simp_all [storedValue, dumps]

theorem filter_map_keyeq (rows : List MemRow) (g : MemRow → MemRow)
    (hg : ∀ r, (g r).key = r.key) (k : Str) :
    (rows.map g).filter (fun r => r.key = k) =
      (rows.filter (fun r => r.key = k)).map g := by
  induction rows with
  | nil => rfl
  | cons r rows ih =>
    by_cases h : r.key = k
    · simp [List.filter_cons, hg r, h, ih]
    · simp [List.filter_cons, hg r, h, ih]

theorem load_eq_getD (db : MemDB) (k : Str) (r : MemRow) (s : Str)
    (h1 : (db.rows.filter (fun x => x.key = k)).head? = some r)
    (h2 : r.value = .pystr s) :
    load db k = some ((parse s).getD (.pystr s)) := by
  unfold load
  simp only [h1, h2]
  cases hp : parse s <;> simp [hp]

theorem save_ok (db : MemDB) (k : Str) (v : PyVal) (m : PyValDict) (now : Nat)
    (sv : Str) (hsv : storedValue v = some sv) :
    ∃ db' ret, save db k v m now = .ok (db', ret) ∧
      ∃ r0, (db'.rows.filter (fun x => x.key = k)).head? = some r0 ∧
        r0.value = .pystr sv := by
  by_cases hup : (db.rows.filter (fun r => r.key = k)).isEmpty
  · refine ⟨⟨db.rows ++ [⟨db.nextId + 1, k, .pystr sv, m, now, now⟩], db.nextId + 1⟩,
      some ⟨db.nextId + 1, k, .pystr sv, m, now, now⟩, ?_, ?_⟩
    · unfold save
      rw [hsv]
      simp [hup, saveReturn]
    · rw [List.filter_append]
      rw [List.isEmpty_iff] at hup
      rw [hup]
      simp
  · refine ⟨⟨db.rows.map (fun r => if r.key = k then updRow k sv m now r else r),
      db.nextId⟩,
      saveReturn ((db.rows.map (fun r => if r.key = k then updRow k sv m now r else r)).filter
        (fun r => r.key = k)), ?_, ?_⟩
    · unfold save
      rw [hsv]
      simp [hup, saveReturn]
    · have hg : ∀ r : MemRow, ((fun r => if r.key = k then updRow k sv m now r else r) r).key = r.key := by
        intro r
        by_cases h : r.key = k <;> simp [updRow, h]
      rw [filter_map_keyeq _ _ hg k, List.head?_map]
      rw [List.isEmpty_iff] at hup
      obtain ⟨r0, rest, hr⟩ := List.exists_cons_of_ne_nil hup
      rw [hr]
      refine ⟨_, rfl, ?_⟩
      have hmem : r0 ∈ db.rows.filter (fun x => x.key = k) := by
        rw [hr]; exact List.mem_cons_self _ _
      have hr0 : r0.key = k := of_decide_eq_true (List.mem_filter.mp hmem).2
      simp [hr0, updRow]

end SupabaseStorage

namespace SupabaseStorage

theorem save_keyCounts (db : MemDB) (k : Str) (v : PyVal) (m : PyValDict) (now : Nat)
    (db' : MemDB) (ret : Option MemRow)
    (h : save db k v m now = .ok (db', ret)) :
    (∀ k', k' ≠ k → keyCount db' k' = keyCount db k') ∧
    keyCount db' k = max (keyCount db k) 1 := by
  cases hsv : storedValue v with
  | none =>
    unfold save at h
    rw [hsv] at h
    cases h
  | some sv =>
    unfold save at h
    rw [hsv] at h
    by_cases hup : (db.rows.filter (fun r => r.key = k)).isEmpty
    · simp [hup, saveReturn] at h
      obtain ⟨hdb, hret⟩ := h
      subst hdb
      rw [List.isEmpty_iff] at hup
      refine ⟨?_, ?_⟩
      · intro k' hk'
        simp [keyCount, List.filter_append, List.filter_cons, Ne.symm hk']
      · have hz : keyCount db k = 0 := by simp [keyCount, hup]
        simp [keyCount, List.filter_append, List.filter_cons, hup, hz]
    · simp [hup, saveReturn] at h
      obtain ⟨hdb, hret⟩ := h
      subst hdb
      have hg : ∀ r : MemRow,
          ((fun r => if r.key = k then updRow k sv m now r else r) r).key = r.key := by
        intro r
        by_cases hrk : r.key = k <;> simp [updRow, hrk]
      have hcount : ∀ k', keyCount
          ⟨db.rows.map (fun r => if r.key = k then updRow k sv m now r else r), db.nextId⟩ k'
            = keyCount db k' := by
        intro k'
        simp only [keyCount]
        rw [filter_map_keyeq _ _ hg k', List.length_map]
      have hpos : keyCount db k ≠ 0 := by
        intro h0
        rw [List.isEmpty_iff] at hup
        exact hup (List.length_eq_zero.mp (by simpa [keyCount] using h0))
      refine ⟨fun k' _ => hcount k', ?_⟩
      rw [hcount k]
      omega

end SupabaseStorage

namespace SupabaseStorage

theorem roundtrip_value (v : PyVal) (hrep : representable v = true)
    (hst : loadStable v = true) :
    ∃ sv, storedValue v = some sv ∧ (parse sv).getD (.pystr sv) = v := by
  cases v with
  | pystr s =>
    refine ⟨s, rfl, ?_⟩
    have hp : parse s = none := Option.isNone_iff_eq_none.mp (by simpa [loadStable] using hst)
    simp [hp]
  | pyobj tag => simp [representable] at hrep
  | pynull => exact ⟨encV .pynull, by simp [storedValue, dumps, hrep],
      by simp [parse_encV _ hrep]⟩
  | pybool b => exact ⟨encV (.pybool b), by simp [storedValue, dumps, hrep],
      by simp [parse_encV _ hrep]⟩
  | pyint n => exact ⟨encV (.pyint n), by simp [storedValue, dumps, hrep],
      by simp [parse_encV _ hrep]⟩
  | pylist xs => exact ⟨encV (.pylist xs), by simp [storedValue, dumps, hrep],
      by simp [parse_encV _ hrep]⟩
  | pydict kvs => exact ⟨encV (.pydict kvs), by simp [storedValue, dumps, hrep],
      by simp [parse_encV _ hrep]⟩

theorem keyCount_delete_le (db : MemDB) (k k' : Str) :
    keyCount (delete db k).1 k' ≤ keyCount db k' := by
  simp only [keyCount, delete]
  exact List.Sublist.length_le (List.Sublist.filter _ (List.filter_sublist _))

theorem keyCount_clear_le (db : MemDB) (k' : Str) :
    keyCount (clear db).1 k' ≤ keyCount db k' := by
  simp only [keyCount, clear]
  exact List.Sublist.length_le (List.Sublist.filter _ (List.filter_sublist _))

end SupabaseStorage

/-- C1 (corrected): for every serializable value that is not itself a string
parsing as JSON, `save` then `load` returns the value unchanged, and a
non-serializable value makes `save` fail with the `TypeError` before
anything is written. -/
theorem spec_C1 :
    (∀ (db : MemDB) (k : Str) (v : PyVal) (m : PyValDict) (now : Nat),
      representable v = true → loadStable v = true →
      ∃ db' ret, SupabaseStorage.save db k v m now = .ok (db', ret) ∧
        SupabaseStorage.load db' k = some v) ∧
    (∀ (db : MemDB) (k : Str) (v : PyVal) (m : PyValDict) (now : Nat),
      representable v = false →
      SupabaseStorage.save db k v m now = .error .typeError) := by
  constructor
  · intro db k v m now hrep hst
    obtain ⟨sv, hsv, hrt⟩ := SupabaseStorage.roundtrip_value v hrep hst
    obtain ⟨db', ret, hsave, r0, hhead, hval⟩ :=
      SupabaseStorage.save_ok db k v m now sv hsv
    exact ⟨db', ret, hsave, by
      rw [SupabaseStorage.load_eq_getD db' k r0 sv hhead hval, hrt]⟩
  · intro db k v m now hrep
    unfold SupabaseStorage.save
    rw [SupabaseStorage.storedValue_of_unrepresentable v hrep]

/-- C1, the counterexample to the claim as stated: the representable value
`"true"` (a Python string) is stored raw, and `load` hands it to
`json.loads`, which turns it into the boolean `True`. -/
theorem spec_C1_counterexample :
    ∃ db' ret,
      SupabaseStorage.save ⟨[], 0⟩ ['k'] (.pystr "true".toList) .nil 0 = .ok (db', ret) ∧
      SupabaseStorage.load db' ['k'] = some (.pybool true) ∧
      some (PyVal.pybool true) ≠ some (PyVal.pystr "true".toList) :=
  ⟨_, _, rfl, by decide, by decide⟩

/-- C1, witness. -/
theorem spec_C1_witness :
    (∃ db' ret, SupabaseStorage.save ⟨[], 0⟩ ['k'] (.pyint 5) .nil 0 = .ok (db', ret) ∧
      SupabaseStorage.load db' ['k'] = some (.pyint 5)) ∧
    SupabaseStorage.save ⟨[], 0⟩ ['k'] (.pyobj "UUID".toList) .nil 0 = .error .typeError :=
  ⟨spec_C1.1 ⟨[], 0⟩ ['k'] (.pyint 5) .nil 0 (by decide) (by decide),
   spec_C1.2 ⟨[], 0⟩ ['k'] (.pyobj "UUID".toList) .nil 0 (by decide)⟩

/-- C3 (corrected): every mutating memory-store operation preserves the
at-most-one-row-per-key invariant; saving twice under one key leaves exactly
one row, whose loaded value is the second save's value whenever that value is
not a JSON-parsing string. -/
theorem spec_C3 :
    (∀ (db : MemDB) (k : Str) (v : PyVal) (m : PyValDict) (now : Nat)
        (db' : MemDB) (ret : Option MemRow),
      SupabaseStorage.save db k v m now = .ok (db', ret) →
      SupabaseStorage.memInv db → SupabaseStorage.memInv db') ∧
    (∀ (db : MemDB) (k : Str), SupabaseStorage.memInv db →
      SupabaseStorage.memInv (SupabaseStorage.delete db k).1) ∧
    (∀ db : MemDB, SupabaseStorage.memInv db →
      SupabaseStorage.memInv (SupabaseStorage.clear db).1) ∧
    (∀ (db : MemDB) (k : Str) (v1 v2 : PyVal) (m1 m2 : PyValDict) (t1 t2 : Nat),
      SupabaseStorage.memInv db →
      representable v1 = true → representable v2 = true → loadStable v2 = true →
      ∃ db1 r1 db2 r2,
        SupabaseStorage.save db k v1 m1 t1 = .ok (db1, r1) ∧
        SupabaseStorage.save db1 k v2 m2 t2 = .ok (db2, r2) ∧
        SupabaseStorage.load db2 k = some v2 ∧
        SupabaseStorage.keyCount db2 k = 1) := by
  have hsavePres : ∀ (db : MemDB) (k : Str) (v : PyVal) (m : PyValDict) (now : Nat)
      (db' : MemDB) (ret : Option MemRow),
      SupabaseStorage.save db k v m now = .ok (db', ret) →
      SupabaseStorage.memInv db → SupabaseStorage.memInv db' := by
    intro db k v m now db' ret h hinv k'
    obtain ⟨hother, hk⟩ := SupabaseStorage.save_keyCounts db k v m now db' ret h
    by_cases hkk : k' = k
    · subst hkk
      have := hinv k'
      omega
    · rw [hother k' hkk]
      exact hinv k'
  refine ⟨hsavePres, ?_, ?_, ?_⟩
  · intro db k hinv k'
    exact le_trans (SupabaseStorage.keyCount_delete_le db k k') (hinv k')
  · intro db hinv k'
    exact le_trans (SupabaseStorage.keyCount_clear_le db k') (hinv k')
  · intro db k v1 v2 m1 m2 t1 t2 hinv hrep1 hrep2 hst2
    have hsv1 : ∃ sv1, SupabaseStorage.storedValue v1 = some sv1 := by
      cases hs : SupabaseStorage.storedValue v1 with
      | none =>
        cases v1 with
        | pystr s => cases hs
        | _ =>
          exfalso
          revert hs
          simp_all [SupabaseStorage.storedValue, dumps]
      | some sv => exact ⟨sv, rfl⟩
    obtain ⟨sv1, hsv1⟩ := hsv1
    obtain ⟨db1, r1, hsave1, _⟩ := SupabaseStorage.save_ok db k v1 m1 t1 sv1 hsv1
    obtain ⟨sv2, hsv2, hrt2⟩ := SupabaseStorage.roundtrip_value v2 hrep2 hst2
    obtain ⟨db2, r2, hsave2, r0, hhead, hval⟩ :=
      SupabaseStorage.save_ok db1 k v2 m2 t2 sv2 hsv2
    refine ⟨db1, r1, db2, r2, hsave1, hsave2, ?_, ?_⟩
    · rw [SupabaseStorage.load_eq_getD db2 k r0 sv2 hhead hval, hrt2]
    · obtain ⟨_, hk1⟩ := SupabaseStorage.save_keyCounts db k v1 m1 t1 db1 r1 hsave1
      obtain ⟨_, hk2⟩ := SupabaseStorage.save_keyCounts db1 k v2 m2 t2 db2 r2 hsave2
      have := hinv k
      omega

/-- C3, the counterexample to the claim as stated: with `v2` the string
`"1"`, the second save stores it raw and `load` returns the integer `1`,
not `v2`. -/
theorem spec_C3_counterexample :
    ∃ db1 r1 db2 r2,
      SupabaseStorage.save ⟨[], 0⟩ ['k'] (.pybool true) .nil 0 = .ok (db1, r1) ∧
      SupabaseStorage.save db1 ['k'] (.pystr ['1']) .nil 1 = .ok (db2, r2) ∧
      SupabaseStorage.load db2 ['k'] = some (.pyint 1) ∧
      some (PyVal.pyint 1) ≠ some (PyVal.pystr ['1']) :=
  ⟨_, _, _, _, rfl, rfl, by decide, by decide⟩

/-- C3, witness. -/
theorem spec_C3_witness :
    ∃ db1 r1 db2 r2,
      SupabaseStorage.save ⟨[], 0⟩ ['k'] (.pybool true) .nil 0 = .ok (db1, r1) ∧
      SupabaseStorage.save db1 ['k'] (.pyint 7) .nil 1 = .ok (db2, r2) ∧
      SupabaseStorage.load db2 ['k'] = some (.pyint 7) ∧
      SupabaseStorage.keyCount db2 ['k'] = 1 :=
  spec_C3.2.2.2 ⟨[], 0⟩ ['k'] (.pybool true) (.pyint 7) .nil .nil 0 1
    (fun k' => by simp [SupabaseStorage.keyCount]) (by decide) (by decide) (by decide)

/-- C5 (corrected): the journal's `add` raises the distinct affected-zero
error exactly when the upsert response carries no row; the memory store's
`save` instead returns the empty record (line 74) and raises nothing. -/
theorem spec_C5 :
    (∀ resp : List ResultRow, resp = [] →
      KickoffTaskOutputsSupabaseStorage.addResponseCheck resp =
        .error (.wrapped .saveError .affectedZero)) ∧
    (∀ resp : List ResultRow, resp ≠ [] →
      KickoffTaskOutputsSupabaseStorage.addResponseCheck resp = .ok ()) ∧
    (∀ resp : List MemRow, resp = [] → SupabaseStorage.saveReturn resp = none) := by
  refine ⟨?_, ?_, ?_⟩
  · intro resp h
    subst h
    rfl
  · intro resp h
    unfold KickoffTaskOutputsSupabaseStorage.addResponseCheck
    simp [h]
  · intro resp h
    subst h
    rfl

/-- C5, the counterexample to the claim as stated: a zero-row response to
`MemoryStore.save`'s write is answered with the empty record, not with the
affected-zero error. -/
theorem spec_C5_counterexample :
    SupabaseStorage.saveReturn ([] : List MemRow) = none := rfl

/-- C5, witness. -/
theorem spec_C5_witness :
    KickoffTaskOutputsSupabaseStorage.addResponseCheck [] =
        .error (.wrapped .saveError .affectedZero) ∧
    KickoffTaskOutputsSupabaseStorage.addResponseCheck
        [⟨['t'], [], .pynull, 0, .pynull, false, 0⟩] = .ok () ∧
    SupabaseStorage.saveReturn ([] : List MemRow) = none :=
  ⟨spec_C5.1 [] rfl,
   spec_C5.2.1 [⟨['t'], [], .pynull, 0, .pynull, false, 0⟩] (by decide),
   spec_C5.2.2 [] rfl⟩

/-- C6 (confirmed): when the stored value is a string that fails to decode,
`load` returns the raw stored value unchanged — the decode failure never
fails the read. -/
theorem spec_C6 :
    ∀ (db : MemDB) (k : Str) (r : MemRow) (s : Str),
      (db.rows.filter (fun x => x.key = k)).head? = some r →
      r.value = .pystr s → parse s = none →
      SupabaseStorage.load db k = some (.pystr s) := by
  intro db k r s h1 h2 hp
  rw [SupabaseStorage.load_eq_getD db k r s h1 h2, hp]
  rfl

/-- C6, witness: an opaque payload (`"hello"`, not valid JSON) is returned
verbatim. -/
theorem spec_C6_witness :
    SupabaseStorage.load ⟨[⟨1, ['k'], .pystr "hello".toList, .nil, 0, 0⟩], 1⟩ ['k'] =
      some (.pystr "hello".toList) :=
  spec_C6 ⟨[⟨1, ['k'], .pystr "hello".toList, .nil, 0, 0⟩], 1⟩ ['k']
    ⟨1, ['k'], .pystr "hello".toList, .nil, 0, 0⟩ "hello".toList
    (by decide) rfl (by decide)

/-- C2 (confirmed): `load` returns all stored journal records sorted
ascending by `task_index`, and in the two-add scenario the first element of
`load()` has `task_index = 0` in either call order. -/
theorem spec_C2 :
    (∀ db : KickoffDB, List.Sorted KickoffTaskOutputsSupabaseStorage.resultLE
      (KickoffTaskOutputsSupabaseStorage.load db)) ∧
    (∀ db : KickoffDB, (KickoffTaskOutputsSupabaseStorage.load db).Perm db.results) ∧
    (∃ db1 db2,
      KickoffTaskOutputsSupabaseStorage.add ⟨[], [], 0, 0⟩ ⟨"t1".toList, ['e']⟩
        (.pydict .nil) 0 false (.pydict .nil) = .ok db1 ∧
      KickoffTaskOutputsSupabaseStorage.add db1 ⟨"t2".toList, ['e']⟩
        (.pydict .nil) 1 false (.pydict .nil) = .ok db2 ∧
      (KickoffTaskOutputsSupabaseStorage.load db2).head?.map ResultRow.task_index =
        some 0) ∧
    (∃ db1 db2,
      KickoffTaskOutputsSupabaseStorage.add ⟨[], [], 0, 0⟩ ⟨"t2".toList, ['e']⟩
        (.pydict .nil) 1 false (.pydict .nil) = .ok db1 ∧
      KickoffTaskOutputsSupabaseStorage.add db1 ⟨"t1".toList, ['e']⟩
        (.pydict .nil) 0 false (.pydict .nil) = .ok db2 ∧
      (KickoffTaskOutputsSupabaseStorage.load db2).head?.map ResultRow.task_index =
        some 0) := by
  refine ⟨?_, ?_, ⟨_, _, rfl, rfl, by decide⟩, ⟨_, _, rfl, rfl, by decide⟩⟩
  · intro db
    exact List.sorted_insertionSort _ _
  · intro db
    exact List.perm_insertionSort _ _

/-- C7 (corrected): `delete_all` wipes every record whose `task_id` is
nonempty — which is all of them for journal-written rows — but a record with
an empty `task_id` survives the `neq("task_id", "")` filter. -/
theorem spec_C7 :
    ∀ db : KickoffDB, (∀ r ∈ db.results, r.task_id ≠ ([] : Str)) →
      KickoffTaskOutputsSupabaseStorage.load
        (KickoffTaskOutputsSupabaseStorage.delete_all db) = [] := by
  intro db h
  have hfil : db.results.filter (fun r => r.task_id = ([] : Str)) = [] := by
    rw [List.filter_eq_nil_iff]
    intro r hr
    simpa using h r hr
  unfold KickoffTaskOutputsSupabaseStorage.load KickoffTaskOutputsSupabaseStorage.delete_all
  simp [hfil]

/-- C7, the counterexample to the claim as stated: a stored record whose
`task_id` is the empty string survives `delete_all`, so `load()` afterwards
is not empty. -/
theorem spec_C7_counterexample :
    KickoffTaskOutputsSupabaseStorage.load
        (KickoffTaskOutputsSupabaseStorage.delete_all
          ⟨[⟨[], ['e'], .pynull, 0, .pynull, false, 0⟩], [], 0, 1⟩) =
      [⟨[], ['e'], .pynull, 0, .pynull, false, 0⟩] ∧
    ([⟨[], ['e'], .pynull, 0, .pynull, false, 0⟩] : List ResultRow) ≠ [] :=
  ⟨by decide, by decide⟩

/-- C7, witness. -/
theorem spec_C7_witness :
    KickoffTaskOutputsSupabaseStorage.load
      (KickoffTaskOutputsSupabaseStorage.delete_all
        ⟨[⟨['a'], ['e'], .pynull, 0, .pynull, false, 0⟩,
          ⟨['b'], ['e'], .pynull, 1, .pynull, false, 1⟩], [], 0, 2⟩) = [] :=
  spec_C7 ⟨[⟨['a'], ['e'], .pynull, 0, .pynull, false, 0⟩,
    ⟨['b'], ['e'], .pynull, 1, .pynull, false, 1⟩], [], 0, 2⟩ (by decide)

/-- C8 (confirmed): `save_crew_state` always appends a fresh snapshot row
(never an overwrite); two saves under one `task_id` leave two distinct
retrievable snapshots, and `load_crew_state` returns rows ordered ascending
by timestamp. -/
theorem spec_C8 :
    (∀ (db : KickoffDB) (tid : Option Str),
      List.Sorted KickoffTaskOutputsSupabaseStorage.crewLE
        (KickoffTaskOutputsSupabaseStorage.load_crew_state db tid)) ∧
    (∀ (db : KickoffDB) (tid : Str) (s1 s2 e1 e2 : PyVal),
      crewEncode s1 = some e1 → crewEncode s2 = some e2 →
      ∃ db1 db2 r1 r2,
        KickoffTaskOutputsSupabaseStorage.save_crew_state db tid s1 = .ok db1 ∧
        KickoffTaskOutputsSupabaseStorage.save_crew_state db1 tid s2 = .ok db2 ∧
        db2.crewState = db.crewState ++ [r1, r2] ∧
        r1.id ≠ r2.id ∧ r1.timestamp < r2.timestamp ∧
        r1.task_id = tid ∧ r2.task_id = tid ∧
        r1.state_data = e1 ∧ r2.state_data = e2 ∧
        r1 ∈ KickoffTaskOutputsSupabaseStorage.load_crew_state db2 (some tid) ∧
        r2 ∈ KickoffTaskOutputsSupabaseStorage.load_crew_state db2 (some tid)) := by
  constructor
  · intro db tid
    unfold KickoffTaskOutputsSupabaseStorage.load_crew_state
    cases tid with
    | none => exact List.sorted_insertionSort _ _
    | some t =>
      by_cases ht : t = ([] : Str) <;> simp [ht] <;> exact List.sorted_insertionSort _ _
  · intro db tid s1 s2 e1 e2 h1 h2
    refine ⟨⟨db.results, db.crewState ++ [⟨db.nextId, tid, e1, db.now⟩],
        db.nextId + 1, db.now + 1⟩,
      ⟨db.results, (db.crewState ++ [⟨db.nextId, tid, e1, db.now⟩]) ++
        [⟨db.nextId + 1, tid, e2, db.now + 1⟩], db.nextId + 2, db.now + 2⟩,
      ⟨db.nextId, tid, e1, db.now⟩, ⟨db.nextId + 1, tid, e2, db.now + 1⟩,
      ?_, ?_, ?_, by simp, by simp, rfl, rfl, rfl, rfl, ?_, ?_⟩
    · unfold KickoffTaskOutputsSupabaseStorage.save_crew_state
      rw [h1]
      rfl
    · unfold KickoffTaskOutputsSupabaseStorage.save_crew_state
      rw [h2]
      rfl
    · simp
    · have hmem : (⟨db.nextId, tid, e1, db.now⟩ : CrewStateRow) ∈
          (db.crewState ++ [⟨db.nextId, tid, e1, db.now⟩]) ++
            [⟨db.nextId + 1, tid, e2, db.now + 1⟩] := by simp
      unfold KickoffTaskOutputsSupabaseStorage.load_crew_state
      by_cases ht : tid = ([] : Str)
      · simp only [ht, if_pos rfl]
        exact ((List.perm_insertionSort _ _).mem_iff).mpr (by simpa [ht] using hmem)
      · simp only [ht, if_neg ht]
        refine ((List.perm_insertionSort _ _).mem_iff).mpr ?_
        refine List.mem_filter.mpr ⟨by simpa using hmem, by simp⟩
    · have hmem : (⟨db.nextId + 1, tid, e2, db.now + 1⟩ : CrewStateRow) ∈
          (db.crewState ++ [⟨db.nextId, tid, e1, db.now⟩]) ++
            [⟨db.nextId + 1, tid, e2, db.now + 1⟩] := by simp
      unfold KickoffTaskOutputsSupabaseStorage.load_crew_state
      by_cases ht : tid = ([] : Str)
      · simp only [ht, if_pos rfl]
        exact ((List.perm_insertionSort _ _).mem_iff).mpr (by simpa [ht] using hmem)
      · simp only [ht, if_neg ht]
        refine ((List.perm_insertionSort _ _).mem_iff).mpr ?_
        refine List.mem_filter.mpr ⟨by simpa using hmem, by simp⟩

/-- C8, witness. -/
theorem spec_C8_witness :
    ∃ db1 db2 r1 r2,
      KickoffTaskOutputsSupabaseStorage.save_crew_state ⟨[], [], 0, 0⟩ ['t'] .pynull = .ok db1 ∧
      KickoffTaskOutputsSupabaseStorage.save_crew_state db1 ['t'] (.pybool true) = .ok db2 ∧
      db2.crewState = ([] : List CrewStateRow) ++ [r1, r2] ∧
      r1.id ≠ r2.id ∧ r1.timestamp < r2.timestamp ∧
      r1.task_id = ['t'] ∧ r2.task_id = ['t'] ∧
      r1.state_data = .pynull ∧ r2.state_data = .pybool true ∧
      r1 ∈ KickoffTaskOutputsSupabaseStorage.load_crew_state db2 (some ['t']) ∧
      r2 ∈ KickoffTaskOutputsSupabaseStorage.load_crew_state db2 (some ['t']) :=
  spec_C8.2 ⟨[], [], 0, 0⟩ ['t'] .pynull (.pybool true) .pynull (.pybool true) rfl rfl

/-- C4 (corrected): the journal/snapshot constructor and the log sink
constructor probe their tables with a minimal read and fail fast with the
wrapped schema error, before any data call is possible; the memory store's
`_ensure_table_exists` is a documented no-op, so its construction succeeds
even when its table is missing. -/
theorem spec_C4 :
    (∀ (url key tbl : Str) (be : Backend),
      SupabaseStorage.init url key tbl be = .ok ()) ∧
    (∀ (u k : Option Str) (env : Env) (be : Backend),
      truthy (pyOr u env.supabase_url) = true →
      truthy (pyOr k env.supabase_key) = true →
      ("results".toList ∉ be.tables ∨ "crew_state".toList ∉ be.tables) →
      KickoffTaskOutputsSupabaseStorage.init u k env be =
        .error (.wrapped .initError .schemaVerify)) ∧
    (∀ (fp : FilePathArg) (env : Env) (be : Backend),
      truthy env.supabase_url = true → truthy env.supabase_key = true →
      "logs".toList ∉ be.tables →
      FileHandler.init fp env be = .error (.wrapped .initError .schemaVerify)) := by
  refine ⟨fun _ _ _ _ => rfl, ?_, ?_⟩
  · intro u k env be h1 h2 h3
    rcases h3 with h3 | h3
    · simp only [KickoffTaskOutputsSupabaseStorage.init, h1, h2, Bool.not_true,
        Bool.or_self, Bool.false_eq_true, if_false]
      rw [if_neg (fun hc => h3 hc.1)]
    · simp only [KickoffTaskOutputsSupabaseStorage.init, h1, h2, Bool.not_true,
        Bool.or_self, Bool.false_eq_true, if_false]
      rw [if_neg (fun hc => h3 hc.2)]
  · intro fp env be h1 h2 h3
    simp only [FileHandler.init, h1, h2, Bool.not_true, Bool.or_self,
      Bool.false_eq_true, if_false]
    rw [if_neg h3]

/-- C4, the counterexample to the claim as stated: constructing the memory
store against a backend with no tables at all succeeds — no probe runs and
no schema error is raised. -/
theorem spec_C4_counterexample :
    SupabaseStorage.init "u".toList "k".toList "crewai_memory".toList ⟨[]⟩ = .ok () ∧
    "crewai_memory".toList ∉ (Backend.mk []).tables :=
  ⟨rfl, by simp⟩

/-- C4, witness: the journal against a store missing the `results` table and
the log sink against a store missing `logs` both fail at construction. -/
theorem spec_C4_witness :
    SupabaseStorage.init "u".toList "k".toList "crewai_memory".toList ⟨[]⟩ = .ok () ∧
    KickoffTaskOutputsSupabaseStorage.init (some "u".toList) (some "k".toList)
        ⟨none, none⟩ ⟨[]⟩ = .error (.wrapped .initError .schemaVerify) ∧
    FileHandler.init (.ofBool true) ⟨some "u".toList, some "k".toList⟩ ⟨[]⟩ =
      .error (.wrapped .initError .schemaVerify) :=
  ⟨spec_C4.1 "u".toList "k".toList "crewai_memory".toList ⟨[]⟩,
   spec_C4.2.1 (some "u".toList) (some "k".toList) ⟨none, none⟩ ⟨[]⟩
     (by decide) (by decide) (Or.inl (by simp)),
   spec_C4.2.2 (.ofBool true) ⟨some "u".toList, some "k".toList⟩ ⟨[]⟩
     (by decide) (by decide) (by simp)⟩

/-- C9 (corrected): every successfully logged event is appended with the
timestamp the client computed at call time (`datetime.now()` on line 130),
sent with the insert — not a timestamp assigned by the backing store. -/
theorem spec_C9 :
    ∀ (db : LogsDB) (clientNow : Nat) (kwargs : List (Str × PyVal)) (db' : LogsDB),
      FileHandler.log db clientNow kwargs = .ok db' →
      ∃ r, db'.rows = db.rows ++ [r] ∧ r.timestamp = clientNow := by
  intro db cn kwargs db' h
  unfold FileHandler.log at h
  by_cases hm : FileHandler.metadataOk kwargs
  · simp only [hm, if_pos, List.isEmpty_cons, Bool.false_eq_true, if_false,
      Except.ok.injEq] at h
    subst h
    exact ⟨⟨db.nextId, cn, kwargs⟩, rfl, rfl⟩
  · simp [hm] at h

/-- C9, the counterexample to the claim as stated: logging at client time `5`
against a store whose server clock reads `7` records timestamp `5` — the
value is client-stamped, not server-stamped. -/
theorem spec_C9_counterexample :
    ∃ db', FileHandler.log ⟨[], 0, 7⟩ 5 [] = .ok db' ∧
      db'.rows.map LogRow.timestamp = [5] ∧ (5 : Nat) ≠ 7 :=
  ⟨_, rfl, by decide, by decide⟩

/-- C9, witness. -/
theorem spec_C9_witness :
    ∃ r, (LogsDB.mk [⟨0, 5, []⟩] 1 8).rows = (LogsDB.mk [] 0 7).rows ++ [r] ∧
      r.timestamp = 5 :=
  spec_C9 (LogsDB.mk [] 0 7) 5 [] (LogsDB.mk [⟨0, 5, []⟩] 1 8) rfl

/-- C10 (corrected): the outcome of the log sink's constructor is independent
of its `file_path` argument; but construction does not fail *exactly* when a
credential is missing — it also fails when the `logs` table probe fails. -/
theorem spec_C10 :
    (∀ (fp1 fp2 : FilePathArg) (env : Env) (be : Backend),
      FileHandler.init fp1 env be = FileHandler.init fp2 env be) ∧
    (∀ (fp : FilePathArg) (env : Env) (be : Backend),
      FileHandler.init fp env be = .ok () ↔
        (truthy env.supabase_url = true ∧ truthy env.supabase_key = true ∧
          "logs".toList ∈ be.tables)) := by
  constructor
  · intro _ _ _ _
    rfl
  · intro fp env be
    unfold FileHandler.init
    by_cases h1 : truthy env.supabase_url <;>
      by_cases h2 : truthy env.supabase_key <;>
        by_cases h3 : "logs".toList ∈ be.tables <;>
          simp [h1, h2, h3]

/-- C10, the counterexample to the claim as stated: both credentials are
present, yet construction fails because the `logs` table is missing — so
"fails exactly when either is missing" does not hold. -/
theorem spec_C10_counterexample :
    truthy (some "u".toList) = true ∧ truthy (some "k".toList) = true ∧
    FileHandler.init .noneArg ⟨some "u".toList, some "k".toList⟩ ⟨[]⟩ =
      .error (.wrapped .initError .schemaVerify) := by
  refine ⟨by decide, by decide, rfl⟩

